/-
Verification of the cloudrun-action deployment core against its design
specification.  The embedding follows the TypeScript sources:

  * src/docker.ts   — `ServiceConfiguration` (createOrUpdate, delete,
                      setCloudRunServiceIAMPolicy, getStatus),
                      `setGoogleApplicationCredentials`,
                      `waitForDockerImage`, `getEnvVarsFromImage`
  * src/main.ts     — the entry point dispatch on `delete_service`
  * action.yml      — the action's declared inputs and defaults

Remote I/O (the Cloud Run API, the registry, the filesystem) is modelled
by explicit oracles: a function from attempt number to the observed
outcome of that attempt, and an association-list filesystem.  Machine
numbers from the JavaScript side are modelled as ℤ and ℚ (the quotient
`timeout*60/interval` is an exact rational for integer inputs; the
float-rounding of JS division cannot cross an integer boundary for the
moderate integer inputs the action accepts, so the loop-iteration counts
agree).
-/
import Mathlib

namespace CloudRunAction

/-! ## Registry availability poller (`waitForDockerImage`, docker.ts)

The JS loop is

    while (attempt < maxAttempts) {
      attempt++
      try { await auth.request({url, method: 'HEAD', ...}); return true }
      catch (error) {
        if (error instanceof GaxiosError) {
          if (error.response?.status !== 404) { throw error }
        }
      }
      await delay(checkInterval * 1000)
    }
    return false

with `maxAttempts = (parseInt(image_check_timeout) * 60) / checkInterval`
computed in floating point.  Each attempt's outcome at the registry is an
oracle value: the manifest HEAD request either succeeds, fails with a
Gaxios 404 ("not found"), or fails with any other (Gaxios, non-404)
error, which the loop re-throws.  (`auth.request` reports its failures
as `GaxiosError`s, so those three outcomes are exhaustive; an exception
that were not a `GaxiosError` would be swallowed by the `catch` and
take the same retry path as a 404.) -/

/-- Outcome of one manifest existence check against the registry. -/
inductive RegOutcome
  | found
  | notFound404
  | fatalError
  deriving DecidableEq, Repr

/-- Result of `waitForDockerImage`: returned `true`, returned `false`
after exhausting the attempt budget, or re-threw a non-404 error. -/
inductive WaitResult
  | success
  | timedOut
  | raised
  deriving DecidableEq, Repr

/-- The `while (attempt < maxAttempts)` loop of `waitForDockerImage`.
`check n` is the registry's answer to the (n+1)-st HEAD request.  Returns
the loop's result together with the number of HEAD requests performed
from this point on.  `maxAttempts` is the rational value of the JS float
`(timeout*60)/interval`. -/
def waitLoop (check : ℕ → RegOutcome) (maxAttempts : ℚ) (attempt : ℕ) :
    WaitResult × ℕ :=
  if h : (attempt : ℚ) < maxAttempts then
    match check attempt with
    | .found => (.success, 1)
    | .fatalError => (.raised, 1)
    | .notFound404 =>
        let r := waitLoop check maxAttempts (attempt + 1)
        (r.1, r.2 + 1)
  else
    (.timedOut, 0)
termination_by (max 0 ⌈maxAttempts⌉).toNat - attempt
decreasing_by
  have h1 : (attempt : ℚ) ≤ (⌈maxAttempts⌉ : ℚ) :=
    le_trans (le_of_lt h) (Int.le_ceil maxAttempts)
  have h2 : (attempt : ℤ) ≤ ⌈maxAttempts⌉ := by exact_mod_cast h1
  have h3 : (attempt : ℚ) < (⌈maxAttempts⌉ : ℚ) := lt_of_lt_of_le h (Int.le_ceil maxAttempts)
  have h4 : (attempt : ℤ) < ⌈maxAttempts⌉ := by exact_mod_cast h3
  have h5 : attempt < (max 0 ⌈maxAttempts⌉).toNat := by
    have : (attempt : ℤ) < max 0 ⌈maxAttempts⌉ := lt_of_lt_of_le h4 (le_max_right _ _)
    omega
  omega

/-- `waitForDockerImage` (docker.ts): computes
`maxAttempts = (timeout*60)/interval` and runs the attempt loop.
`timeoutMin` and `intervalSec` are the two parsed integer inputs.
In JS the division is on floats: for `intervalSec = 0` and
`timeoutMin > 0` it yields `+Infinity` and the loop never terminates,
modelled here as `none`; for `intervalSec = 0` and `timeoutMin ≤ 0` it
yields `NaN` or `-Infinity`, both of which make `attempt < maxAttempts`
false at once — which coincides with ℚ's `x / 0 = 0` convention used in
the `some` branch. -/
def waitForDockerImage (check : ℕ → RegOutcome)
    (timeoutMin intervalSec : ℤ) : Option (WaitResult × ℕ) :=
  if intervalSec = 0 ∧ 0 < timeoutMin then
    none
  else
    some (waitLoop check ((timeoutMin * 60 : ℚ) / intervalSec) 0)

/-! ## Data model (`ContainerConfiguration.ts`, `ServiceConfiguration` in docker.ts) -/

/-- One `{name, value}` environment-variable entry. -/
structure EnvVar where
  name : String
  value : String
  deriving DecidableEq, Repr

/-- `ContainerConfiguration` (ContainerConfiguration.ts): environment
variables and command arguments extracted from an image. -/
structure ContainerConfiguration where
  envVars : List EnvVar
  arguments : List String
  deriving DecidableEq, Repr

/-- The fields of `ServiceConfiguration` (docker.ts).  `project` is
resolved from the auth context inside `createOrUpdate`; it is a plain
field here (set before the calls that use it, exactly as in the source). -/
structure ServiceConfiguration where
  name : String
  runRegion : String
  serviceAccountKey : String
  image : Option String
  serviceAccountName : Option String
  vpcConnectorName : Option String
  containerConfig : Option ContainerConfiguration
  project : String
  deriving DecidableEq, Repr

/-- `serviceName()`: `this.name.replace(/_/g, '-')` — every underscore
becomes a hyphen (`String.replace` in Lean also replaces all
occurrences). -/
def ServiceConfiguration.serviceName (c : ServiceConfiguration) : String :=
  c.name.replace "_" "-"

/-- The Knative service document built by `cloudRunCreateService()`,
flattened to its populated fields (`metadata.name`,
`metadata.namespace`, the vpc-access-connector template annotation, and
the template spec's service account, image, env list and args list). -/
structure KnativeService where
  apiVersion : String
  kind : String
  metadataName : String
  metadataNamespace : String
  vpcAccessConnectorAnnotation : Option String
  serviceAccountName : Option String
  containerImage : Option String
  containerEnv : Option (List EnvVar)
  containerArgs : Option (List String)
  deriving DecidableEq, Repr

/-- `cloudRunCreateService()` (docker.ts): the full desired-state
document, a pure function of the configuration. -/
def ServiceConfiguration.cloudRunCreateService (c : ServiceConfiguration) :
    KnativeService where
  apiVersion := "serving.knative.dev/v1"
  kind := "Service"
  metadataName := c.serviceName
  metadataNamespace := c.project
  vpcAccessConnectorAnnotation := c.vpcConnectorName
  serviceAccountName := c.serviceAccountName
  containerImage := c.image
  containerEnv := c.containerConfig.map (·.envVars)
  containerArgs := c.containerConfig.map (·.arguments)

/-! ## Service reconciler (`createOrUpdate`, `setCloudRunServiceIAMPolicy`) -/

/-- What the remote platform answers to the probe
`run.namespaces.services.get`: success (the service exists), a Gaxios
error with response status 404 (it does not exist), or any other error
(non-404 Gaxios error, or an error that is not a `GaxiosError`; both
take the same path through the `catch`). -/
inductive ProbeResult
  | found
  | notFound404
  | apiError
  deriving DecidableEq, Repr

/-- The Cloud Run API calls `createOrUpdate` can issue, with their
payloads. -/
inductive RunApiCall
  | getService (name : String)
  | replaceService (name : String) (body : KnativeService)
  | createService (parent : String) (body : KnativeService)
  | setIamPolicyAllUsersInvoker (resource : String)
  | pollStatus (name : String)
  deriving DecidableEq, Repr

/-- JS truthiness of a string (the source tests
`if (core.getInput('allow_unauthenticated'))` — `core.getInput` returns
a string, and a string is truthy exactly when it is non-empty). -/
def jsTruthy (s : String) : Bool :=
  s ≠ ""

/-- `setCloudRunServiceIAMPolicy()` (docker.ts): when the
`allow_unauthenticated` input string is truthy, one `setIamPolicy` call
binding `allUsers` to `roles/run.invoker`; otherwise no call. -/
def ServiceConfiguration.setCloudRunServiceIAMPolicyCalls
    (c : ServiceConfiguration) (allowUnauthenticated : String) :
    List RunApiCall :=
  if jsTruthy allowUnauthenticated then
    [.setIamPolicyAllUsersInvoker
      ("projects/" ++ c.project ++ "/locations/" ++ c.runRegion ++
        "/services/" ++ c.serviceName)]
  else []

/-- The sequence of Cloud Run API calls issued by `createOrUpdate()`
(docker.ts), as a function of the probe's outcome:

  * probe succeeds (service exists) → `replaceService` with the full
    document (replacing an existing service does not 404, so the
    `catch` branch is not taken);
  * probe fails with 404 → `createService` (errors of the create call
    itself are caught and only logged, so they do not alter the trace);
  * probe fails with any other error → the `catch (error)` block
    matches neither `GaxiosError`-404 nor rethrows, so the error is
    swallowed and control falls through.

In every case control then reaches `setCloudRunServiceIAMPolicy()` and
`getStatus()` — the inner catch never rethrows. -/
def ServiceConfiguration.createOrUpdateCalls (c : ServiceConfiguration)
    (probe : ProbeResult) (allowUnauthenticated : String) :
    List RunApiCall :=
  let fullName := "namespaces/" ++ c.project ++ "/services/" ++ c.serviceName
  (match probe with
    | .found =>
        [.getService fullName,
         .replaceService fullName c.cloudRunCreateService]
    | .notFound404 =>
        [.getService fullName,
         .createService ("namespaces/" ++ c.project) c.cloudRunCreateService]
    | .apiError => [.getService fullName])
  ++ c.setCloudRunServiceIAMPolicyCalls allowUnauthenticated
  ++ [.pollStatus fullName]

/-- Is this call a `createService`? -/
def isCreateCall : RunApiCall → Bool
  | .createService _ _ => true
  | _ => false

/-- Is this call a `replaceService` (update)? -/
def isReplaceCall : RunApiCall → Bool
  | .replaceService _ _ => true
  | _ => false

/-- Is this call a `setIamPolicy`? -/
def isSetIamCall : RunApiCall → Bool
  | .setIamPolicyAllUsersInvoker _ => true
  | _ => false

/-- Is this call the readiness poll (`getStatus`)? -/
def isPollCall : RunApiCall → Bool
  | .pollStatus _ => true
  | _ => false

/-! ## Readiness poller (`getStatus`, docker.ts) -/

/-- One observation of the service resource's status: the first entry of
`status.conditions` (its `status`, `message` and `lastTransitionTime`)
together with `status.url`. -/
structure PollObservation where
  conditionStatus : String
  conditionMessage : String
  lastTransitionTime : String
  url : Option String
  deriving DecidableEq, Repr

/-- Result of `getStatus`: the returned `{url, deploymentDate}`, the
thrown deployment-failure `Error`, or the thrown timeout `Error`. -/
inductive StatusOutcome
  | ready (url : String) (deploymentDate : String)
  | deploymentFailed (message : String)
  | readinessTimeout (message : String)
  deriving DecidableEq, Repr

/-- The hardcoded attempt budget of `getStatus` (`while (attempt < 100)`). -/
def getStatusMaxAttempts : ℕ := 100

/-- The hardcoded per-attempt delay of `getStatus` (`await delay(500)`). -/
def getStatusDelayMs : ℕ := 500

/-- The revision-logs link embedded in the deployment-failure message. -/
def logsLink (runRegion serviceName project : String) : String :=
  "https://console.cloud.google.com/run/detail/" ++ runRegion ++ "/" ++
    serviceName ++ "/logs?project=" ++ project

/-- The message of the timeout `Error` thrown after the attempt budget. -/
def readinessTimeoutMessage : String :=
  "Unable to retrieve service URL! Check the Cloud Run deployment for errors."

/-- A finished run of `getStatus`: its outcome, the number of status
fetches performed, and the total milliseconds slept (one
`delay(500)` precedes every fetch). -/
structure StatusRun where
  outcome : StatusOutcome
  polls : ℕ
  sleptMs : ℕ
  deriving DecidableEq, Repr

/-- The `while (attempt < 100)` loop of `getStatus` (docker.ts).
`obs n` is the status observed by the (n+1)-st fetch.  Each iteration
sleeps 500 ms, fetches, and inspects `status.conditions[0].status`:
`"Unknown"` continues; anything else returns the URL and the
condition's `lastTransitionTime` when `status.url` is set, and
otherwise throws an `Error` carrying the condition's message and the
revision-logs link. -/
def getStatusLoop (c : ServiceConfiguration) (obs : ℕ → PollObservation)
    (attempt : ℕ) : StatusRun :=
  if attempt < getStatusMaxAttempts then
    let o := obs attempt
    if o.conditionStatus ≠ "Unknown" then
      match o.url with
      | some u => ⟨.ready u o.lastTransitionTime, 1, getStatusDelayMs⟩
      | none =>
          ⟨.deploymentFailed
            (o.conditionMessage ++ "\nView logs for this revision: " ++
              logsLink c.runRegion c.serviceName c.project),
            1, getStatusDelayMs⟩
    else
      let r := getStatusLoop c obs (attempt + 1)
      ⟨r.outcome, r.polls + 1, r.sleptMs + getStatusDelayMs⟩
  else
    ⟨.readinessTimeout readinessTimeoutMessage, 0, 0⟩
termination_by getStatusMaxAttempts - attempt

/-- `getStatus()` (docker.ts): run the poll loop from attempt 0. -/
def ServiceConfiguration.getStatus (c : ServiceConfiguration)
    (obs : ℕ → PollObservation) : StatusRun :=
  getStatusLoop c obs 0

/-! ## Credential provisioner (`setGoogleApplicationCredentials`) and the
image-inspection credential resolution (`getEnvVarsFromImage`) -/

/-- A filesystem as an association list from path to contents; the most
recent write shadows older entries. -/
abbrev FileSystem := List (String × String)

/-- `fs.readFileSync`-as-lookup: the contents at a path, if the file
exists. -/
def readFile (fs : FileSystem) (p : String) : Option String :=
  fs.lookup p

/-- `fs.writeFile`: record contents at a path. -/
def writeFile (fs : FileSystem) (p contents : String) : FileSystem :=
  (p, contents) :: fs

/-- The process state `setGoogleApplicationCredentials` touches: the
`GOOGLE_APPLICATION_CREDENTIALS` environment variable and the
filesystem. -/
structure CredState where
  env : Option String
  fs : FileSystem
  deriving DecidableEq, Repr

/-- `setGoogleApplicationCredentials` (docker.ts): when no ambient
credential location is configured, write the `serviceAccountKey`
argument verbatim to a fresh temporary file (`tmpName` models
`uniqueFilename(os.tmpdir())`) and export that location; otherwise do
nothing.  Note the source performs no `fs.existsSync` check here: the
string is written as-is. -/
def setGoogleApplicationCredentials (st : CredState) (tmpName : String)
    (serviceAccountKey : String) : CredState :=
  match st.env with
  | none => ⟨some tmpName, writeFile st.fs tmpName serviceAccountKey⟩
  | some _ => st

/-- The credential resolution inside `getEnvVarsFromImage` (docker.ts):
if a file exists at the path named by the `service_account_key` input,
its contents are used; otherwise the input itself is the key material. -/
def resolveServiceAccountKeyContents (fs : FileSystem) (key : String) :
    String :=
  match readFile fs key with
  | some contents => contents
  | none => key

/-! ## Image reference parsing (`waitForDockerImage`, docker.ts)

The source does

    const imageUrl = new URL(`https://${image}`)
    const imageName = imageUrl.pathname.substring(
      imageUrl.pathname.lastIndexOf('/') + 1,
      imageUrl.pathname.lastIndexOf(':'))
    const imageTag = imageUrl.pathname.substring(
      imageUrl.pathname.lastIndexOf(':') + 1)

`jsLastIdx`/`jsLastIndexOf` and `jsSubstring` model
`String.prototype.lastIndexOf` (−1 when absent) and
`String.prototype.substring` (negative arguments clamp to 0, arguments
beyond the length clamp to the length, and start/end swap when out of
order). -/

/-- Index of the last occurrence of a character, if any. -/
def jsLastIdx (c : Char) : List Char → Option ℕ
  | [] => none
  | x :: xs =>
      match jsLastIdx c xs with
      | some i => some (i + 1)
      | none => if x = c then some 0 else none

/-- `lastIndexOf`: the last index, or −1 when the character is absent. -/
def jsLastIndexOf (c : Char) (l : List Char) : ℤ :=
  (jsLastIdx c l).elim (-1) (fun n => (n : ℤ))

/-- `substring(start, stop)` with JavaScript's clamping and swapping. -/
def jsSubstring (l : List Char) (start stop : ℤ) : List Char :=
  let n : ℤ := l.length
  let a := (max 0 (min start n)).toNat
  let b := (max 0 (min stop n)).toNat
  (l.drop (min a b)).take (max a b - min a b)

/-- The host/pathname split `new URL('https://' + s)` performs, for
image-reference strings without user-info, port, query, fragment or
characters the URL parser would rewrite: the host is everything before
the first '/', the pathname the rest (or "/" when there is none). -/
def urlHostPath (s : List Char) : List Char × List Char :=
  let host := s.takeWhile (· != '/')
  let rest := s.dropWhile (· != '/')
  (host, if rest.isEmpty then ['/'] else rest)

/-- The (host, imageName, imageTag) triple `waitForDockerImage` extracts
from the `image` input, over character lists. -/
def parseImageChars (s : List Char) : List Char × List Char × List Char :=
  let hp := urlHostPath s
  let path := hp.2
  let iName := jsSubstring path (jsLastIndexOf '/' path + 1)
    (jsLastIndexOf ':' path)
  let iTag := jsSubstring path (jsLastIndexOf ':' path + 1) path.length
  (hp.1, iName, iTag)

/-- The same extraction on strings. -/
def parseImageReference (s : String) : String × String × String :=
  let p := parseImageChars s.toList
  (⟨p.1⟩, ⟨p.2.1⟩, ⟨p.2.2⟩)

/-! ## Entry point dispatch (`main`, main.ts) -/

/-- The two paths `main()` can take. -/
inductive MainPath
  | createOrUpdate
  | deleteService
  deriving DecidableEq, Repr

/-- `main()` (main.ts): `if (core.getInput('delete_service') === 'false')`
selects the create-or-update path, anything else the delete path. -/
def mainDispatch (deleteServiceInput : String) : MainPath :=
  if deleteServiceInput = "false" then .createOrUpdate else .deleteService

/-- A concrete service configuration used to instantiate theorems. -/
def sampleConfig : ServiceConfiguration where
  name := "my_svc"
  runRegion := "europe-west1"
  serviceAccountKey := "KEYJSON"
  image := some "gcr.io/p/x:v1"
  serviceAccountName := none
  vpcConnectorName := none
  containerConfig := none
  project := "proj"

/-! # Theorems -/

/-! ## Laws of the registry wait loop -/

theorem waitLoop_stop (check : ℕ → RegOutcome) (M : ℚ) (a : ℕ)
    (h : ¬ ((a : ℚ) < M)) : waitLoop check M a = (.timedOut, 0) := by
  rw [waitLoop]; simp [h]

theorem waitLoop_step (check : ℕ → RegOutcome) (M : ℚ) (a : ℕ)
    (h : (a : ℚ) < M) :
    waitLoop check M a =
      match check a with
      | .found => (.success, 1)
      | .fatalError => (.raised, 1)
      | .notFound404 =>
          ((waitLoop check M (a + 1)).1, (waitLoop check M (a + 1)).2 + 1) := by
  conv_lhs => rw [waitLoop]
  simp [h]

theorem lt_ceil_toNat {M : ℚ} {a : ℕ} (h : (a : ℚ) < M) :
    a < (max 0 ⌈M⌉).toNat := by
  have h3 : (a : ℚ) < (⌈M⌉ : ℚ) := lt_of_lt_of_le h (Int.le_ceil M)
  have h4 : (a : ℤ) < ⌈M⌉ := by exact_mod_cast h3
  have : (a : ℤ) < max 0 ⌈M⌉ := lt_of_lt_of_le h4 (le_max_right _ _)
  omega

theorem waitLoop_count_zero (check : ℕ → RegOutcome) (M : ℚ) (a : ℕ)
    (h : (waitLoop check M a).2 = 0) : (waitLoop check M a).1 = .timedOut := by
  by_cases hx : (a : ℚ) < M
  · rw [waitLoop_step check M a hx] at *
    cases hc : check a <;> rw [hc] at h <;> simp at h ⊢
  · rw [waitLoop_stop check M a hx]

theorem waitLoop_success_iff (check : ℕ → RegOutcome) (M : ℚ) (a : ℕ) :
    ∀ n : ℕ, waitLoop check M a = (.success, n + 1) ↔
      (((a + n : ℕ) : ℚ) < M ∧ (∀ k < n, check (a + k) = .notFound404) ∧
        check (a + n) = .found) := by
  induction a using waitLoop.induct check M with
  | case1 x hx hc =>
      intro n
      rw [waitLoop_step check M x hx, hc]
      constructor
      · rintro h
        have hn : n = 0 := by
          have := congrArg Prod.snd h
          simpa using this.symm
        subst hn
        exact ⟨by simpa using hx, by omega, by simpa using hc⟩
      · rintro ⟨h1, h2, h3⟩
        rcases Nat.eq_zero_or_pos n with hn | hn
        · subst hn; rfl
        · exfalso
          have := h2 0 hn
          simp [hc] at this
  | case2 x hx hc =>
      intro n
      rw [waitLoop_step check M x hx, hc]
      constructor
      · rintro h; cases h
      · rintro ⟨h1, h2, h3⟩
        rcases Nat.eq_zero_or_pos n with hn | hn
        · subst hn; simp [hc] at h3
        · have := h2 0 hn
          simp [hc] at this
  | case3 x hx hc ih =>
      intro n
      rw [waitLoop_step check M x hx, hc]
      constructor
      · rintro h
        have h1 : (waitLoop check M (x + 1)).1 = .success := by
          have := congrArg Prod.fst h; simpa using this
        have h2 : (waitLoop check M (x + 1)).2 + 1 = n + 1 := by
          have := congrArg Prod.snd h; simpa using this
        rcases Nat.eq_zero_or_pos n with hn | hn
        · subst hn
          have hz : (waitLoop check M (x + 1)).2 = 0 := by omega
          have := waitLoop_count_zero check M (x + 1) hz
          rw [h1] at this
          cases this
        · obtain ⟨m, rfl⟩ : ∃ m, n = m + 1 := ⟨n - 1, by omega⟩
          have hw : waitLoop check M (x + 1) = (.success, m + 1) := by
            have : (waitLoop check M (x + 1)).2 = m + 1 := by omega
            exact Prod.ext h1 this
          obtain ⟨g1, g2, g3⟩ := (ih m).mp hw
          refine ⟨by convert g1 using 2; omega, ?_, by convert g3 using 2; omega⟩
          intro k hk
          rcases Nat.eq_zero_or_pos k with hk0 | hk0
          · subst hk0; simpa using hc
          · obtain ⟨j, rfl⟩ : ∃ j, k = j + 1 := ⟨k - 1, by omega⟩
            have := g2 j (by omega)
            convert this using 2
            omega
      · rintro ⟨h1, h2, h3⟩
        rcases Nat.eq_zero_or_pos n with hn | hn
        · subst hn; simp [hc] at h3
        · obtain ⟨m, rfl⟩ : ∃ m, n = m + 1 := ⟨n - 1, by omega⟩
          have hw : waitLoop check M (x + 1) = (.success, m + 1) := by
            refine (ih m).mpr ⟨by convert h1 using 2; omega, ?_,
              by convert h3 using 2; omega⟩
            intro k hk
            have := h2 (k + 1) (by omega)
            convert this using 2
            omega
          rw [hw]
  | case4 x hx =>
      intro n
      rw [waitLoop_stop check M x hx]
      constructor
      · rintro h; cases h
      · rintro ⟨h1, h2, h3⟩
        exfalso
        have : (x : ℚ) ≤ ((x + n : ℕ) : ℚ) := by
          push_cast; linarith [@Nat.cast_nonneg ℚ _ n]
        exact hx (lt_of_le_of_lt this h1)

theorem waitLoop_timeout (check : ℕ → RegOutcome) (M : ℚ) (a : ℕ)
    (h : ∀ k : ℕ, a ≤ k → (k : ℚ) < M → check k = .notFound404) :
    waitLoop check M a = (.timedOut, (max 0 ⌈M⌉).toNat - a) := by
  induction a using waitLoop.induct check M with
  | case1 x hx hc => exact absurd (h x le_rfl hx) (by simp [hc])
  | case2 x hx hc => exact absurd (h x le_rfl hx) (by simp [hc])
  | case3 x hx hc ih =>
      rw [waitLoop_step check M x hx, hc]
      have := ih (fun k hk => h k (by omega))
      rw [this]
      have hlt := lt_ceil_toNat hx
      simp only [Prod.mk.injEq, true_and]
      omega
  | case4 x hx =>
      rw [waitLoop_stop check M x hx]
      have : (max 0 ⌈M⌉).toNat ≤ x := by
        by_contra hcon
        push_neg at hcon
        have hMx : M ≤ (x : ℚ) := le_of_not_lt hx
        have : ⌈M⌉ ≤ (x : ℤ) := Int.ceil_le.mpr (by exact_mod_cast hMx)
        omega
      simp only [Prod.mk.injEq, true_and]
      omega

theorem waitLoop_raised (check : ℕ → RegOutcome) (M : ℚ) :
    ∀ a n : ℕ, ((a + n : ℕ) : ℚ) < M →
      (∀ k < n, check (a + k) = .notFound404) →
      check (a + n) = .fatalError →
      waitLoop check M a = (.raised, n + 1) := by
  intro a n
  induction n generalizing a with
  | zero =>
      intro h1 _ h3
      rw [waitLoop_step check M a (by simpa using h1)]
      simp only [Nat.add_zero] at h3
      rw [h3]
  | succ m ih =>
      intro h1 h2 h3
      have hax : (a : ℚ) < M := by
        have : ((a : ℕ) : ℚ) ≤ ((a + (m + 1) : ℕ) : ℚ) := by push_cast; linarith
        exact lt_of_le_of_lt this h1
      rw [waitLoop_step check M a hax]
      have hc0 : check a = .notFound404 := by simpa using h2 0 (by omega)
      rw [hc0]
      have := ih (a + 1) (by convert h1 using 2; omega)
        (fun k hk => by have := h2 (k + 1) (by omega); convert this using 2; omega)
        (by convert h3 using 2; omega)
      rw [this]

/-! ## C2 — attempt-by-attempt classification of `waitForDockerImage` -/

/-- C2: for every run of `waitForDockerImage` (with a positive check
interval, so the attempt bound `M = timeout·60/interval` is a finite
rational), (1) it returns `true` with exactly N HEAD requests performed
iff N ≥ 1, the Nth attempt is within the bound, the first N−1 checks
report 404 and the Nth reports success; (2) it returns `false` after
exactly the full budget of checks when every in-budget check reports
404; and (3) it re-throws at the first check reporting a non-404 error,
having performed exactly the checks up to and including that one —
regardless of how many attempts remain. -/
theorem waitForImage_attempt_classification (check : ℕ → RegOutcome)
    (t i : ℤ) (M : ℚ) (hi : 0 < i) (hM : M = (t * 60 : ℚ) / i) :
    (∀ N : ℕ, waitForDockerImage check t i = some (.success, N) ↔
        (1 ≤ N ∧ ((N - 1 : ℕ) : ℚ) < M ∧
          (∀ k < N - 1, check k = .notFound404) ∧ check (N - 1) = .found))
    ∧ ((∀ k : ℕ, (k : ℚ) < M → check k = .notFound404) →
        waitForDockerImage check t i = some (.timedOut, (max 0 ⌈M⌉).toNat))
    ∧ (∀ N : ℕ, ((N : ℕ) : ℚ) < M → (∀ k < N, check k = .notFound404) →
        check N = .fatalError →
        waitForDockerImage check t i = some (.raised, N + 1)) := by
  have hbranch : waitForDockerImage check t i = some (waitLoop check M 0) := by
    rw [waitForDockerImage, if_neg (by rintro ⟨rfl, _⟩; exact absurd hi (by omega)), hM]
  refine ⟨?_, ?_, ?_⟩
  · intro N
    rw [hbranch]
    constructor
    · intro h
      have hw : waitLoop check M 0 = (.success, N) := by
        exact Option.some_injective _ h
      have hN : 1 ≤ N := by
        by_contra hcon
        have hz : N = 0 := by omega
        rw [hz] at hw
        have := waitLoop_count_zero check M 0 (by rw [hw])
        rw [hw] at this
        cases this
      obtain ⟨m, rfl⟩ : ∃ m, N = m + 1 := ⟨N - 1, by omega⟩
      obtain ⟨g1, g2, g3⟩ := (waitLoop_success_iff check M 0 m).mp hw
      refine ⟨hN, by simpa using g1, ?_, by simpa using g3⟩
      intro k hk
      simpa using g2 k (by omega)
    · rintro ⟨h1, h2, h3, h4⟩
      obtain ⟨m, rfl⟩ : ∃ m, N = m + 1 := ⟨N - 1, by omega⟩
      have hw : waitLoop check M 0 = (.success, m + 1) := by
        refine (waitLoop_success_iff check M 0 m).mpr
          ⟨by simpa using h2, ?_, by simpa using h4⟩
        intro k hk
        simpa using h3 k (by omega)
      rw [hw]
  · intro h
    rw [hbranch, waitLoop_timeout check M 0 (fun k _ => h k)]
    simp
  · intro N h1 h2 h3
    rw [hbranch, waitLoop_raised check M 0 N (by simpa using h1)
      (fun k hk => by simpa using h2 k hk) (by simpa using h3)]

/-- Witness for C2: with a 1-minute timeout and 30-second interval
(`M = 2`) against a registry that reports 404 once and then success,
`waitForDockerImage` returns `true` on the second attempt. -/
theorem waitForImage_attempt_classification_witness :
    waitForDockerImage (fun n => if n = 1 then .found else .notFound404)
      1 30 = some (.success, 2) := by
  have h := (waitForImage_attempt_classification
    (fun n => if n = 1 then .found else .notFound404) 1 30 2
    (by norm_num) (by norm_num)).1 2
  exact h.mpr ⟨by norm_num, by norm_num, by decide, by decide⟩

/-! ## C6 — attempt budget of `waitForDockerImage` -/

/-- Counterexample to C6 as stated: with a 1-minute timeout and a
40-second interval against a registry that always reports 404,
`waitForDockerImage` performs 2 attempts — more than
`floor(timeout/interval) = floor(60/40) = 1`.  The JS bound
`maxAttempts = (timeout*60)/interval` is a float quotient and the
`while (attempt < maxAttempts)` loop runs it up to its ceiling, not its
floor. -/
theorem waitForImage_attempt_budget_counterexample :
    waitForDockerImage (fun _ => .notFound404) 1 40 = some (.timedOut, 2) ∧
    ⌊((1 * 60 : ℚ) / 40)⌋.toNat = 1 := by
  constructor
  · rw [waitForDockerImage, if_neg (by norm_num),
      waitLoop_timeout _ _ 0 (fun k _ _ => rfl)]
    have hc : ⌈((3 : ℚ) / 2)⌉ = 2 := by
      rw [Int.ceil_eq_iff] <;> norm_num
    norm_num [hc]
    rfl
  · have hf : ⌊((3 : ℚ) / 2)⌋ = 1 := by
      rw [Int.floor_eq_iff] <;> norm_num
    norm_num [hf]

/-- C6 amended: when every in-budget check reports 404 (and the loop
bound is finite), `waitForDockerImage` performs exactly
`max 0 ⌈timeout·60/interval⌉` attempts — the ceiling of the quotient,
not its floor — and returns `false`. -/
theorem waitForImage_attempt_budget (check : ℕ → RegOutcome) (t i : ℤ)
    (h : ¬ (i = 0 ∧ 0 < t)) (hnf : ∀ k, check k = .notFound404) :
    waitForDockerImage check t i =
      some (.timedOut, (max 0 ⌈(t * 60 : ℚ) / i⌉).toNat) := by
  rw [waitForDockerImage, if_neg h,
    waitLoop_timeout _ _ 0 (fun k _ _ => hnf k)]
  simp

/-- Witness for C6 (also end-to-end scenario D of the spec): 1-minute
timeout, 30-second interval, registry always 404 → exactly 2 attempts
and `false`. -/
theorem waitForImage_attempt_budget_witness :
    waitForDockerImage (fun _ => .notFound404) 1 30 =
      some (.timedOut, 2) := by
  have h := waitForImage_attempt_budget (fun _ => .notFound404) 1 30
    (by norm_num) (fun _ => rfl)
  rw [h, show ((1 : ℤ) * 60 : ℚ) / (30 : ℤ) = ((2 : ℤ) : ℚ) by norm_num,
    Int.ceil_intCast]
  rfl

/-! ## C7 — behaviour on non-positive timeout or interval -/

/-- Counterexample to C7 as stated: with `image_check_timeout = 0`
(non-positive) and `image_check_interval = 5`, `waitForDockerImage`
raises no configuration error: it completes normally, performing zero
registry checks and returning `false` — even against a registry where
the very first check would have succeeded. -/
theorem waitForImage_no_validation_counterexample :
    waitForDockerImage (fun _ => .found) 0 5 = some (.timedOut, 0) := by
  rw [waitForDockerImage, if_neg (by norm_num),
    waitLoop_stop _ _ 0 (by norm_num)]

/-- C7 amended: `waitForDockerImage` performs no input validation and
has no configuration-error outcome.  When the attempt bound
`timeout·60/interval` is non-positive (zero or negative timeout with a
positive interval, or a positive timeout with a negative interval), it
performs zero registry checks and returns `false`; when the interval is
zero and the timeout positive, the JS bound is `+Infinity` and the loop
never terminates. -/
theorem waitForImage_no_validation :
    (∀ (check : ℕ → RegOutcome) (t i : ℤ), i ≠ 0 →
        (t * 60 : ℚ) / i ≤ 0 →
        waitForDockerImage check t i = some (.timedOut, 0))
    ∧ (∀ (check : ℕ → RegOutcome) (t : ℤ), 0 < t →
        waitForDockerImage check t 0 = none) := by
  constructor
  · intro check t i hi hq
    rw [waitForDockerImage, if_neg (by rintro ⟨rfl, _⟩; exact hi rfl),
      waitLoop_stop _ _ 0 (by push_cast; linarith)]
  · intro check t ht
    rw [waitForDockerImage, if_pos ⟨rfl, ht⟩]

/-- Witness for C7: a zero timeout with the default 5-second interval
completes with `false` after zero checks; a positive timeout with a
zero interval never terminates. -/
theorem waitForImage_no_validation_witness :
    waitForDockerImage (fun _ => .notFound404) 0 5 = some (.timedOut, 0) ∧
    waitForDockerImage (fun _ => .notFound404) 30 0 = none := by
  refine ⟨waitForImage_no_validation.1 _ 0 5 (by norm_num) (by norm_num),
    waitForImage_no_validation.2 _ 30 (by norm_num)⟩

/-! ## C1 — create-if-absent, replace-if-present -/

/-- C1: for every service specification and every value of the
`allow_unauthenticated` input, when the probe reports the service
absent (404) `createOrUpdate` issues exactly one `createService` call
and no `replaceService` call, and when the probe finds the service it
issues exactly one `replaceService` call and no `createService` call. -/
theorem createOrUpdate_create_xor_update (c : ServiceConfiguration)
    (allow : String) :
    ((c.createOrUpdateCalls .notFound404 allow).countP isCreateCall = 1 ∧
      (c.createOrUpdateCalls .notFound404 allow).countP isReplaceCall = 0) ∧
    ((c.createOrUpdateCalls .found allow).countP isReplaceCall = 1 ∧
      (c.createOrUpdateCalls .found allow).countP isCreateCall = 0) := by
  by_cases h : jsTruthy allow <;>
    simp [ServiceConfiguration.createOrUpdateCalls,
      ServiceConfiguration.setCloudRunServiceIAMPolicyCalls, h,
      List.countP_append, List.countP_cons, isCreateCall, isReplaceCall]

/-! ## C5 — a probe error does not abort reconciliation -/

/-- Counterexample to C5 as stated: when the probe fails with a non-404
error, `createOrUpdate` indeed performs no create and no update, but it
does not abort — it still issues the IAM-policy call (here with a
truthy `allow_unauthenticated`) and still proceeds to readiness
polling, because the `catch` block swallows the error. -/
theorem createOrUpdate_probeError_counterexample :
    ((sampleConfig.createOrUpdateCalls .apiError "true").countP
        isCreateCall = 0) ∧
    ((sampleConfig.createOrUpdateCalls .apiError "true").countP
        isReplaceCall = 0) ∧
    ((sampleConfig.createOrUpdateCalls .apiError "true").countP
        isSetIamCall = 1) ∧
    ((sampleConfig.createOrUpdateCalls .apiError "true").countP
        isPollCall = 1) := by
  refine ⟨rfl, rfl, rfl, rfl⟩

/-- C5 amended: if the probe fails with any error other than 404, no
`createService` and no `replaceService` call is made, but reconciliation
does not abort: the error is swallowed, the IAM-authorization step still
runs (issuing its call whenever `allow_unauthenticated` is truthy), and
readiness polling is still performed. -/
theorem createOrUpdate_probeError_swallowed (c : ServiceConfiguration)
    (allow : String) :
    ((c.createOrUpdateCalls .apiError allow).countP isCreateCall = 0) ∧
    ((c.createOrUpdateCalls .apiError allow).countP isReplaceCall = 0) ∧
    ((c.createOrUpdateCalls .apiError allow).countP isPollCall = 1) ∧
    ((c.createOrUpdateCalls .apiError allow).countP isSetIamCall =
      if jsTruthy allow then 1 else 0) := by
  by_cases h : jsTruthy allow <;>
    simp [ServiceConfiguration.createOrUpdateCalls,
      ServiceConfiguration.setCloudRunServiceIAMPolicyCalls, h,
      List.countP_append, List.countP_cons, isCreateCall, isReplaceCall,
      isPollCall, isSetIamCall]

/-! ## C4 — IAM policy and the `allow_unauthenticated` input -/

/-- C4 (documenting the code bug): the source gates the IAM-policy call
on the JS truthiness of the `allow_unauthenticated` input string.  The
string `"true"` (public mode) sets the policy as the claim states — but
so does the string `"false"`, the action's declared default for
restricted mode, because a non-empty string is truthy.  Only the empty
string skips the call.  The claim (and the action's own input
description) say restricted mode must not set the policy; the code sets
it. -/
theorem setIamPolicy_truthiness (c : ServiceConfiguration) :
    (c.setCloudRunServiceIAMPolicyCalls "true").countP isSetIamCall = 1 ∧
    (c.setCloudRunServiceIAMPolicyCalls "false").countP isSetIamCall = 1 ∧
    (c.setCloudRunServiceIAMPolicyCalls "").countP isSetIamCall = 0 := by
  refine ⟨?_, ?_, ?_⟩ <;>
    simp [ServiceConfiguration.setCloudRunServiceIAMPolicyCalls, jsTruthy,
      isSetIamCall]

/-! ## C10 — entry-point dispatch on `delete_service` -/

/-- C10: `main` takes the create-or-update path exactly when the
`delete_service` input is the string "false"; every other value —
including "False", "0", "no" and the empty string — takes the delete
path. -/
theorem mainDispatch_strict_false (s : String) :
    (mainDispatch s = .createOrUpdate ↔ s = "false") ∧
    mainDispatch "False" = .deleteService ∧
    mainDispatch "0" = .deleteService ∧
    mainDispatch "no" = .deleteService ∧
    mainDispatch "" = .deleteService := by
  refine ⟨?_, rfl, rfl, rfl, rfl⟩
  unfold mainDispatch
  by_cases h : s = "false" <;> simp [h]

/-! ## Laws of the readiness-poll loop -/

theorem getStatusLoop_stop (c : ServiceConfiguration)
    (obs : ℕ → PollObservation) (a : ℕ) (h : ¬ a < getStatusMaxAttempts) :
    getStatusLoop c obs a = ⟨.readinessTimeout readinessTimeoutMessage, 0, 0⟩ := by
  rw [getStatusLoop]
  simp [h]

theorem getStatusLoop_step_unknown (c : ServiceConfiguration)
    (obs : ℕ → PollObservation) (a : ℕ) (h : a < getStatusMaxAttempts)
    (hu : (obs a).conditionStatus = "Unknown") :
    getStatusLoop c obs a =
      ⟨(getStatusLoop c obs (a + 1)).outcome,
        (getStatusLoop c obs (a + 1)).polls + 1,
        (getStatusLoop c obs (a + 1)).sleptMs + getStatusDelayMs⟩ := by
  conv_lhs => rw [getStatusLoop]
  simp [h, hu]

theorem getStatusLoop_step_terminal (c : ServiceConfiguration)
    (obs : ℕ → PollObservation) (a : ℕ) (h : a < getStatusMaxAttempts)
    (hu : (obs a).conditionStatus ≠ "Unknown") :
    getStatusLoop c obs a =
      ⟨match (obs a).url with
        | some u => .ready u (obs a).lastTransitionTime
        | none =>
            .deploymentFailed
              ((obs a).conditionMessage ++ "\nView logs for this revision: " ++
                logsLink c.runRegion c.serviceName c.project),
        1, getStatusDelayMs⟩ := by
  conv_lhs => rw [getStatusLoop]
  simp only [if_pos h, if_pos hu]
  cases (obs a).url <;> rfl

theorem getStatusLoop_timeout (c : ServiceConfiguration)
    (obs : ℕ → PollObservation) :
    ∀ d a : ℕ, getStatusMaxAttempts - a = d →
      (∀ k, a ≤ k → k < getStatusMaxAttempts →
        (obs k).conditionStatus = "Unknown") →
      getStatusLoop c obs a =
        ⟨.readinessTimeout readinessTimeoutMessage, d, d * getStatusDelayMs⟩ := by
  intro d
  induction d with
  | zero =>
      intro a ha _
      rw [getStatusLoop_stop c obs a (by omega)]
      simp
  | succ m ih =>
      intro a ha h
      have hlt : a < getStatusMaxAttempts := by omega
      rw [getStatusLoop_step_unknown c obs a hlt (h a le_rfl hlt),
        ih (a + 1) (by omega) (fun k hk => h k (by omega))]
      simp only [StatusRun.mk.injEq, true_and]
      ring

theorem getStatusLoop_terminal (c : ServiceConfiguration)
    (obs : ℕ → PollObservation) :
    ∀ n a : ℕ, a + n < getStatusMaxAttempts →
      (∀ k < n, (obs (a + k)).conditionStatus = "Unknown") →
      (obs (a + n)).conditionStatus ≠ "Unknown" →
      getStatusLoop c obs a =
        ⟨match (obs (a + n)).url with
          | some u => .ready u (obs (a + n)).lastTransitionTime
          | none =>
              .deploymentFailed
                ((obs (a + n)).conditionMessage ++
                  "\nView logs for this revision: " ++
                  logsLink c.runRegion c.serviceName c.project),
          n + 1, (n + 1) * getStatusDelayMs⟩ := by
  intro n
  induction n with
  | zero =>
      intro a h1 _ h3
      rw [getStatusLoop_step_terminal c obs a (by omega) (by simpa using h3)]
      simp only [Nat.add_zero] at *
      simp [one_mul]
  | succ m ih =>
      intro a h1 h2 h3
      have hu : (obs a).conditionStatus = "Unknown" := by
        simpa using h2 0 (by omega)
      rw [getStatusLoop_step_unknown c obs a (by omega) hu,
        ih (a + 1) (by omega)
          (fun k hk => by have := h2 (k + 1) (by omega); convert this using 3; omega)
          (by convert h3 using 3; omega)]
      have harg : a + 1 + m = a + (m + 1) := by omega
      rw [harg]
      simp only [StatusRun.mk.injEq, true_and]
      ring

/-! ## C3 — the readiness-polling state machine -/

/-- C3: every poll of `getStatus` inspects `status.conditions[0]`.
While its status is `"Unknown"` the loop retries, each attempt preceded
by the fixed `getStatusDelayMs` (= 500 ms) sleep, up to the fixed
`getStatusMaxAttempts` (= 100) budget.  At the first non-Unknown
condition it returns the service URL together with that condition's
`lastTransitionTime` when `status.url` is present, and throws the
deployment-failed error carrying the condition's message and the
constructed logs link when it is not.  If all 100 attempts stay
Unknown, it throws the distinct timeout error (a different
`StatusOutcome` constructor with its own message). -/
theorem getStatus_state_machine (c : ServiceConfiguration)
    (obs : ℕ → PollObservation) :
    (getStatusMaxAttempts = 100 ∧ getStatusDelayMs = 500)
    ∧ ((∀ k < getStatusMaxAttempts, (obs k).conditionStatus = "Unknown") →
        c.getStatus obs =
          ⟨.readinessTimeout readinessTimeoutMessage, getStatusMaxAttempts,
            getStatusMaxAttempts * getStatusDelayMs⟩)
    ∧ (∀ n u, n < getStatusMaxAttempts →
        (∀ k < n, (obs k).conditionStatus = "Unknown") →
        (obs n).conditionStatus ≠ "Unknown" → (obs n).url = some u →
        c.getStatus obs =
          ⟨.ready u (obs n).lastTransitionTime, n + 1,
            (n + 1) * getStatusDelayMs⟩)
    ∧ (∀ n, n < getStatusMaxAttempts →
        (∀ k < n, (obs k).conditionStatus = "Unknown") →
        (obs n).conditionStatus ≠ "Unknown" → (obs n).url = none →
        c.getStatus obs =
          ⟨.deploymentFailed
              ((obs n).conditionMessage ++ "\nView logs for this revision: " ++
                logsLink c.runRegion c.serviceName c.project),
            n + 1, (n + 1) * getStatusDelayMs⟩) := by
  refine ⟨⟨rfl, rfl⟩, ?_, ?_, ?_⟩
  · intro h
    rw [ServiceConfiguration.getStatus,
      getStatusLoop_timeout c obs getStatusMaxAttempts 0 (by omega)
        (fun k _ => h k)]
  · intro n u hn hbefore hterm hurl
    rw [ServiceConfiguration.getStatus,
      getStatusLoop_terminal c obs n 0 (by omega)
        (fun k hk => by simpa using hbefore k hk) (by simpa using hterm)]
    simp only [Nat.zero_add, hurl]
  · intro n hn hbefore hterm hurl
    rw [ServiceConfiguration.getStatus,
      getStatusLoop_terminal c obs n 0 (by omega)
        (fun k hk => by simpa using hbefore k hk) (by simpa using hterm)]
    simp only [Nat.zero_add, hurl]

/-- Witness for C3: a service whose first condition is already terminal
(`"True"`) with a URL present is reported ready after one poll and one
500 ms sleep, carrying the condition's transition timestamp. -/
theorem getStatus_state_machine_witness :
    sampleConfig.getStatus
        (fun _ => ⟨"True", "Ready", "2021-01-01T00:00:00Z",
          some "https://my-svc-xyz.a.run.app"⟩) =
      ⟨.ready "https://my-svc-xyz.a.run.app" "2021-01-01T00:00:00Z",
        1, 500⟩ := by
  have h := (getStatus_state_machine sampleConfig
    (fun _ => ⟨"True", "Ready", "2021-01-01T00:00:00Z",
      some "https://my-svc-xyz.a.run.app"⟩)).2.2.1 0
    "https://my-svc-xyz.a.run.app" (by decide) (by omega) (by decide) rfl
  simpa using h

/-! ## C8 — credential provisioning vs. path resolution -/

/-- Counterexample to C8 as stated: with a file `key.json` holding
`SECRET` on the filesystem and the input `"key.json"` (a path to
existing key material), the credential provisioner
`setGoogleApplicationCredentials` materializes the path string itself —
not the key contents — at the temp location it exports for the remote
client.  The existence-check-and-read behaviour the claim describes
lives only in `getEnvVarsFromImage`
(`resolveServiceAccountKeyContents`), which feeds the Docker pull, not
the location the remote client reads. -/
theorem credential_materialization_counterexample :
    (setGoogleApplicationCredentials ⟨none, [("key.json", "SECRET")]⟩
        "/tmp/gac" "key.json").env = some "/tmp/gac" ∧
    readFile (setGoogleApplicationCredentials ⟨none, [("key.json", "SECRET")]⟩
        "/tmp/gac" "key.json").fs "/tmp/gac" = some "key.json" ∧
    resolveServiceAccountKeyContents [("key.json", "SECRET")] "key.json" =
      "SECRET" ∧
    ("key.json" : String) ≠ "SECRET" := by
  exact ⟨rfl, by decide, by decide, by decide⟩

/-- C8 amended: only the image-inspection path decides between literal
key material and a filesystem path by checking file existence and
resolving the contents; the credential provisioner writes its argument
verbatim to the temp file the remote client reads (and is a no-op once
an ambient credential location is set). -/
theorem credential_materialization (fs : FileSystem)
    (tmp key contents : String) (hread : readFile fs key = some contents) :
    resolveServiceAccountKeyContents fs key = contents ∧
    (setGoogleApplicationCredentials ⟨none, fs⟩ tmp key).env = some tmp ∧
    readFile (setGoogleApplicationCredentials ⟨none, fs⟩ tmp key).fs tmp =
      some key ∧
    (∀ (loc : String) (fs2 : FileSystem),
      setGoogleApplicationCredentials ⟨some loc, fs2⟩ tmp key =
        ⟨some loc, fs2⟩) := by
  refine ⟨?_, rfl, ?_, fun loc fs2 => rfl⟩
  · simp [resolveServiceAccountKeyContents, hread]
  · simp [setGoogleApplicationCredentials, readFile, writeFile, List.lookup]

/-- Witness for C8: the amended statement at the concrete filesystem
holding `key.json ↦ SECRET`. -/
theorem credential_materialization_witness :
    resolveServiceAccountKeyContents [("key.json", "SECRET")] "key.json" =
      "SECRET" ∧
    (setGoogleApplicationCredentials ⟨none, [("key.json", "SECRET")]⟩
        "/tmp/gac" "key.json").env = some "/tmp/gac" ∧
    readFile (setGoogleApplicationCredentials ⟨none, [("key.json", "SECRET")]⟩
        "/tmp/gac" "key.json").fs "/tmp/gac" = some "key.json" := by
  have h := credential_materialization [("key.json", "SECRET")] "/tmp/gac"
    "key.json" "SECRET" rfl
  exact ⟨h.1, h.2.1, h.2.2.1⟩

/-! ## Laws of the image-reference extraction -/

theorem jsLastIdx_eq_none (c : Char) : ∀ l : List Char, c ∉ l →
    jsLastIdx c l = none := by
  intro l
  induction l with
  | nil => intro _; rfl
  | cons x xs ih =>
      intro hmem
      have hx : x ≠ c := by
        intro hcon; exact hmem (by simp [hcon])
      have hxs : c ∉ xs := fun hcon => hmem (List.mem_cons_of_mem _ hcon)
      simp [jsLastIdx, ih hxs, hx]

theorem jsLastIdx_append (c : Char) : ∀ xs ys : List Char,
    jsLastIdx c (xs ++ ys) =
      (match jsLastIdx c ys with
        | some i => some (xs.length + i)
        | none => jsLastIdx c xs) := by
  intro xs ys
  induction xs with
  | nil => cases h : jsLastIdx c ys <;> simp [h, jsLastIdx]
  | cons x xs ih =>
      simp only [List.cons_append, jsLastIdx, List.append_eq]
      rw [ih]
      cases h : jsLastIdx c ys with
      | some i =>
          simp only [List.length_cons, Option.some.injEq]
          omega
      | none =>
          cases h2 : jsLastIdx c xs <;> simp [h2]

theorem jsSubstring_eval (l : List Char) (s e : ℕ) (hs : s ≤ e)
    (he : e ≤ l.length) : jsSubstring l s e = (l.drop s).take (e - s) := by
  unfold jsSubstring
  have h1 : (max 0 (min (s : ℤ) (l.length : ℤ))).toNat = s := by omega
  have h2 : (max 0 (min (e : ℤ) (l.length : ℤ))).toNat = e := by omega
  simp only [h1, h2]
  rw [min_eq_left hs, max_eq_right hs]

theorem takeWhile_sep (p : Char → Bool) : ∀ (h : List Char) (x : Char)
    (rest : List Char), (∀ c ∈ h, p c = true) → p x = false →
    (h ++ x :: rest).takeWhile p = h := by
  intro h x rest hh hx
  induction h with
  | nil => simp [List.takeWhile_cons, hx]
  | cons a s ih =>
      have ha : p a = true := hh a (by simp)
      simp [List.takeWhile_cons, ha, ih (fun c hc => hh c (by simp [hc]))]

theorem dropWhile_sep (p : Char → Bool) : ∀ (h : List Char) (x : Char)
    (rest : List Char), (∀ c ∈ h, p c = true) → p x = false →
    (h ++ x :: rest).dropWhile p = x :: rest := by
  intro h x rest hh hx
  induction h with
  | nil => simp [List.dropWhile_cons, hx]
  | cons a s ih =>
      have ha : p a = true := hh a (by simp)
      simp [List.dropWhile_cons, ha, ih (fun c hc => hh c (by simp [hc]))]

/-! ## C9 — image-reference parsing -/

/-- Counterexample to C9 as stated: the valid reference
`gcr.io/p/x:v1` (multi-segment repository path `p/x`) parses to host
`gcr.io`, name `x` and tag `v1` — the extraction keeps only the last
path segment, so reconstructing `host/name:tag` yields `gcr.io/x:v1`,
which differs from the input.  Moreover a malformed input (missing
`:tag`) yields no parse error: it produces garbage fields (name `"/"`,
tag `"/repo"`). -/
theorem parseImage_lossless_counterexample :
    parseImageReference "gcr.io/p/x:v1" = ("gcr.io", "x", "v1") ∧
    ("gcr.io" ++ "/" ++ "x" ++ ":" ++ "v1" : String) ≠ "gcr.io/p/x:v1" ∧
    parseImageReference "gcr.io/repo" = ("gcr.io", "/", "/repo") := by
  exact ⟨by decide, by decide, by decide⟩

/-- C9 amended: parsing is lossless exactly for references whose
repository path is a single segment.  For `host/repo:tag` with a
non-empty single-segment `repo` (no '/' or the final-':' separator
ambiguity inside it), a host without '/' or ':' (the URL model used
here does not handle ports), and a tag without '/' or ':', the
extraction returns exactly (host, repo, tag) — so reconstruction
returns the input and the fields are as non-empty as the components.
Multi-segment repository paths are truncated to the last segment
(see the counterexample), and malformed input yields garbage, not a
parse error. -/
theorem parseImage_single_segment (h r t : List Char)
    (hh1 : '/' ∉ h) (hh2 : ':' ∉ h) (hr1 : '/' ∉ r)
    (ht1 : '/' ∉ t) (ht2 : ':' ∉ t) :
    parseImageChars (h ++ '/' :: (r ++ ':' :: t)) = (h, r, t) := by
  have hrest : '/' ∉ (r ++ ':' :: t) := by
    simp only [List.mem_append, List.mem_cons]
    rintro (hc | hc | hc)
    · exact hr1 hc
    · cases hc
    · exact ht1 hc
  have hsplit : urlHostPath (h ++ '/' :: (r ++ ':' :: t)) =
      (h, '/' :: (r ++ ':' :: t)) := by
    unfold urlHostPath
    have htw : (h ++ '/' :: (r ++ ':' :: t)).takeWhile (· != '/') = h := by
      refine takeWhile_sep _ h '/' _ (fun c hc => ?_) (by simp)
      rw [bne_iff_ne]
      rintro rfl
      exact hh1 hc
    have hdw : (h ++ '/' :: (r ++ ':' :: t)).dropWhile (· != '/') =
        '/' :: (r ++ ':' :: t) := by
      refine dropWhile_sep _ h '/' _ (fun c hc => ?_) (by simp)
      rw [bne_iff_ne]
      rintro rfl
      exact hh1 hc
    rw [htw, hdw]
    simp
  set path := '/' :: (r ++ ':' :: t) with hpath
  have hslash : jsLastIndexOf '/' path = 0 := by
    unfold jsLastIndexOf
    rw [hpath]
    simp only [jsLastIdx, jsLastIdx_eq_none '/' _ hrest]
    rfl
  have hcolon : jsLastIndexOf ':' path = (r.length + 1 : ℕ) := by
    unfold jsLastIndexOf
    rw [hpath, show ('/' :: (r ++ ':' :: t)) = ('/' :: r) ++ (':' :: t) by simp]
    rw [jsLastIdx_append]
    simp only [jsLastIdx, jsLastIdx_eq_none ':' t ht2]
    simp
  have hlen : path.length = r.length + t.length + 2 := by
    rw [hpath]; simp; omega
  have hname : jsSubstring path (jsLastIndexOf '/' path + 1)
      (jsLastIndexOf ':' path) = r := by
    rw [hslash, hcolon]
    have h01 : ((0 : ℤ) + 1) = ((1 : ℕ) : ℤ) := by norm_num
    rw [h01]
    rw [jsSubstring_eval path 1 (r.length + 1) (by omega) (by omega)]
    rw [hpath]
    simp only [List.drop_succ_cons, List.drop_zero, Nat.add_sub_cancel]
    exact List.take_left r (':' :: t)
  have htag : jsSubstring path (jsLastIndexOf ':' path + 1) path.length = t := by
    rw [hcolon, hlen]
    have e1 : (((r.length + 1 : ℕ) : ℤ) + 1) = ((r.length + 2 : ℕ) : ℤ) := by
      push_cast; ring
    rw [e1]
    rw [jsSubstring_eval path (r.length + 2) (r.length + t.length + 2)
      (by omega) (by omega)]
    rw [hpath]
    simp only [List.drop_succ_cons]
    have hdrop : (r ++ ':' :: t).drop (r.length + 1) = t := by
      have := @List.drop_append _ r (':' :: t) 1
      simpa using this
    rw [hdrop]
    have hsub : r.length + t.length + 2 - (r.length + 2) = t.length := by omega
    rw [hsub, List.take_length]
  unfold parseImageChars
  rw [hsplit]
  simp only [hname, htag]

/-- Witness for C9: the single-segment reference `gcr.io/repo:v1`
parses losslessly into ("gcr.io", "repo", "v1"). -/
theorem parseImage_single_segment_witness :
    parseImageReference "gcr.io/repo:v1" = ("gcr.io", "repo", "v1") := by
  have h := parseImage_single_segment "gcr.io".toList "repo".toList
    "v1".toList (by decide) (by decide) (by decide) (by decide) (by decide)
  unfold parseImageReference
  rw [show ("gcr.io/repo:v1".toList) =
    ("gcr.io".toList ++ '/' :: ("repo".toList ++ ':' :: "v1".toList)) by decide]
  rw [h]
  rfl

end CloudRunAction
